import Mathlib

/-!
Shallow embedding of `src/RF-shield_4relay.ino`, an Arduino sketch that binds
four learned 32-bit RF codes to four relays, persisting both the codes and the
relay states in an external I2C EEPROM.

Modelling conventions:
* Machine integers (`unsigned long`, `byte`) become `Nat`; where the source
  masks with `& 0xFF` or shifts, the model uses the same operators on `Nat`.
  `millis()` timestamps become `Nat` values; `millis() - t` becomes truncated
  natural subtraction, which agrees with unsigned wraparound arithmetic for a
  monotone clock.
* The EEPROM device is a byte-addressed memory `Nat → Nat`.  An I2C
  transaction either succeeds or fails atomically; success is an explicit
  `Bool` parameter of each adapter operation, and the number of bytes the bus
  delivers on a read is an explicit `Nat` parameter (`Wire.available()`).
* Side effects on pins and on the EEPROM are recorded as an explicit list of
  `Action`s, in the order the source performs them.
* Serial diagnostics are not modelled (pure observation, no state).
-/

namespace RFShield

/-- `const unsigned long debounceTime = 1000;` (line 24). -/
def debounceTime : Nat := 1000

/-- `const unsigned long learningModeTimeout = 300000;` (line 32). -/
def learningModeTimeout : Nat := 300000

/-- The four payload bytes of a word write, most-significant byte first
(lines 166–169 of `writeEEPROM(int, unsigned long)`). -/
def wordBytes (value : Nat) : List Nat :=
  [(value >>> 24) &&& 0xFF, (value >>> 16) &&& 0xFF, (value >>> 8) &&& 0xFF, value &&& 0xFF]

/-- Store a list of payload bytes at consecutive addresses, the way the EEPROM
commits the payload of a successful write transaction. -/
def storeBytes : (Nat → Nat) → Nat → List Nat → (Nat → Nat)
  | mem, _, [] => mem
  | mem, a, b :: bs => storeBytes (Function.update mem a b) (a + 1) bs

/-- `writeEEPROM(int address, unsigned long value)` (lines 162–175).
`ok` is the result of the bus transaction (`Wire.endTransmission() == 0`).
Returns the EEPROM contents after the call together with a flag telling
whether the 20 ms settle delay was performed: on bus failure the function
returns early, skipping the delay, and the device commits nothing. -/
def writeEEPROM (ok : Bool) (mem : Nat → Nat) (address value : Nat) :
    (Nat → Nat) × Bool :=
  if ok then (storeBytes mem address (wordBytes value), true) else (mem, false)

/-- `writeEEPROM(int address, bool value)` (lines 178–188): single byte,
`1` for true and `0` for false. -/
def writeEEPROMByte (ok : Bool) (mem : Nat → Nat) (address : Nat) (value : Bool) :
    (Nat → Nat) × Bool :=
  if ok then (Function.update mem address (if value then 1 else 0), true) else (mem, false)

/-- `readEEPROM(int address)` (lines 191–210).  `txOk` is the success of the
address-phase transaction; `avail` is `Wire.available()` after requesting 4
bytes.  `value` starts at 0 and the four bytes are OR-ed in MSB first only
when exactly 4 bytes arrived; otherwise the initial 0 is returned. -/
def readEEPROM (txOk : Bool) (avail : Nat) (mem : Nat → Nat) (address : Nat) : Nat :=
  if !txOk then 0
  else if avail = 4 then
    ((((0 : Nat) ||| (mem address <<< 24)) ||| (mem (address + 1) <<< 16)) |||
        (mem (address + 2) <<< 8)) ||| mem (address + 3)
  else 0

/-- `readEEPROMByte(int address)` (lines 213–229): one byte, default 0. -/
def readEEPROMByte (txOk : Bool) (avail : Nat) (mem : Nat → Nat) (address : Nat) : Nat :=
  if !txOk then 0
  else if avail = 1 then mem address
  else 0

/-! ### Store adapter lemmas -/

theorem storeBytes_word (mem : Nat → Nat) (a b3 b2 b1 b0 : Nat) :
    storeBytes mem a [b3, b2, b1, b0] a = b3 ∧
    storeBytes mem a [b3, b2, b1, b0] (a + 1) = b2 ∧
    storeBytes mem a [b3, b2, b1, b0] (a + 2) = b1 ∧
    storeBytes mem a [b3, b2, b1, b0] (a + 3) = b0 := by
  simp only [storeBytes, Function.update_apply]
  refine ⟨?_, ?_, ?_, ?_⟩ <;>
    repeat first
      | rw [if_pos trivial]
      | rw [if_neg (by omega)]

theorem storeBytes_frame (mem : Nat → Nat) (a b3 b2 b1 b0 x : Nat)
    (h : x < a ∨ a + 4 ≤ x) :
    storeBytes mem a [b3, b2, b1, b0] x = mem x := by
  simp only [storeBytes, Function.update_apply]
  repeat rw [if_neg (by omega)]

theorem or_eq_add_of_lt {i b : Nat} (a : Nat) (hb : b < 2 ^ i) :
    (a * 2 ^ i) ||| b = a * 2 ^ i + b := by
  rw [Nat.mul_comm]
  exact (Nat.mul_add_lt_is_or hb a).symm

theorem assemble_four_bytes (b3 b2 b1 b0 : Nat)
    (h3 : b3 < 256) (h2 : b2 < 256) (h1 : b1 < 256) (h0 : b0 < 256) :
    ((((0 : Nat) ||| (b3 <<< 24)) ||| (b2 <<< 16)) ||| (b1 <<< 8)) ||| b0 =
      b3 * 2 ^ 24 + b2 * 2 ^ 16 + b1 * 2 ^ 8 + b0 := by
  rw [Nat.zero_or, Nat.shiftLeft_eq, Nat.shiftLeft_eq, Nat.shiftLeft_eq]
  have s1 : (b3 * 2 ^ 24) ||| (b2 * 2 ^ 16) = b3 * 2 ^ 24 + b2 * 2 ^ 16 :=
    or_eq_add_of_lt b3 (by nlinarith)
  have e1 : b3 * 2 ^ 24 + b2 * 2 ^ 16 = (b3 * 2 ^ 8 + b2) * 2 ^ 16 := by ring
  have s2 : ((b3 * 2 ^ 8 + b2) * 2 ^ 16) ||| (b1 * 2 ^ 8) =
      (b3 * 2 ^ 8 + b2) * 2 ^ 16 + b1 * 2 ^ 8 :=
    or_eq_add_of_lt _ (by nlinarith)
  have e2 : (b3 * 2 ^ 8 + b2) * 2 ^ 16 + b1 * 2 ^ 8 =
      ((b3 * 2 ^ 8 + b2) * 2 ^ 8 + b1) * 2 ^ 8 := by ring
  have s3 : (((b3 * 2 ^ 8 + b2) * 2 ^ 8 + b1) * 2 ^ 8) ||| b0 =
      ((b3 * 2 ^ 8 + b2) * 2 ^ 8 + b1) * 2 ^ 8 + b0 :=
    or_eq_add_of_lt _ (by omega)
  rw [s1, e1, s2, e2, s3]

theorem readEEPROM_success (mem : Nat → Nat) (a : Nat) :
    readEEPROM true 4 mem a =
      ((((0 : Nat) ||| (mem a <<< 24)) ||| (mem (a + 1) <<< 16)) |||
          (mem (a + 2) <<< 8)) ||| mem (a + 3) := by
  simp [readEEPROM]

theorem wordBytes_lt (value : Nat) :
    (value >>> 24) &&& 0xFF < 256 ∧ (value >>> 16) &&& 0xFF < 256 ∧
    (value >>> 8) &&& 0xFF < 256 ∧ value &&& 0xFF < 256 := by
  have h : (0xFF : Nat) = 2 ^ 8 - 1 := by norm_num
  simp only [h, Nat.and_pow_two_sub_one_eq_mod]
  refine ⟨?_, ?_, ?_, ?_⟩ <;> exact Nat.mod_lt _ (by norm_num)

/-- **C6.** Round-trip through the persistent store: for every slot in `[0,4)`
and every 32-bit code, writing the code at offset `slot * 4` (4 bytes, MSB
first) and reading that offset back returns the same code, provided both bus
transactions succeed and the read delivers all 4 requested bytes. -/
theorem eeprom_word_round_trip (mem : Nat → Nat) (slot code : Nat)
    (hslot : slot < 4) (hcode : code < 2 ^ 32) :
    readEEPROM true 4 (writeEEPROM true mem (slot * 4) code).1 (slot * 4) = code := by
  have hw : (writeEEPROM true mem (slot * 4) code).1 =
      storeBytes mem (slot * 4) (wordBytes code) := by
    simp [writeEEPROM]
  obtain ⟨r0, r1, r2, r3⟩ := storeBytes_word mem (slot * 4)
    ((code >>> 24) &&& 0xFF) ((code >>> 16) &&& 0xFF) ((code >>> 8) &&& 0xFF)
    (code &&& 0xFF)
  obtain ⟨l3, l2, l1, l0⟩ := wordBytes_lt code
  rw [hw, readEEPROM_success]
  simp only [wordBytes] at r0 r1 r2 r3 ⊢
  rw [r0, r1, r2, r3, assemble_four_bytes _ _ _ _ l3 l2 l1 l0]
  have h255 : (0xFF : Nat) = 2 ^ 8 - 1 := by norm_num
  simp only [h255, Nat.and_pow_two_sub_one_eq_mod, Nat.shiftRight_eq_div_pow]
  omega

/-- Witness for `eeprom_word_round_trip` at slot 2, code `0xDEADBEEF`. -/
theorem eeprom_word_round_trip_witness :
    readEEPROM true 4 (writeEEPROM true (fun _ => 0) (2 * 4) 0xDEADBEEF).1 (2 * 4) =
      0xDEADBEEF :=
  eeprom_word_round_trip (fun _ => 0) 2 0xDEADBEEF (by norm_num) (by norm_num)

/-! ### Run-time dispatch model -/

/-- One externally visible side effect of the control code, in program order:
driving a relay pin (`digitalWrite(relayPins[slot], …)`), persisting a relay
state byte, or persisting a code word. -/
inductive Action where
  | digitalWrite (slot : Nat) (level : Bool)
  | storeWriteByte (address : Nat) (value : Bool)
  | storeWriteWord (address : Nat) (value : Nat)
deriving DecidableEq

/-- The globals touched by `handleRFInput` (lines 11, 14, 23, 25):
`buttonCodes` and `relayStates` are the 4-entry arrays (indexed 0–3; the model
uses total functions on `Nat`, only indices below 4 are ever accessed). -/
structure SysState where
  buttonCodes : Nat → Nat
  relayStates : Nat → Bool
  lastReceivedCode : Nat
  lastReceivedTime : Nat

/-- The `for (int i = 0; i < 4; i++) { if (value == buttonCodes[i]) { …; break; } }`
scan of lines 96–108: first matching slot in index order, if any. -/
def matchSlot (codes : Nat → Nat) (value : Nat) : Option Nat :=
  if value = codes 0 then some 0
  else if value = codes 1 then some 1
  else if value = codes 2 then some 2
  else if value = codes 3 then some 3
  else none

/-- `handleRFInput()` (lines 86–116) for one available received `value` at
clock reading `now`.  Returns the updated globals and the list of side
effects in the order the source performs them.  A zero value only prints a
diagnostic; a non-zero value is accepted when it differs from
`lastReceivedCode` or more than `debounceTime` ms have elapsed since the
last acceptance; an accepted value toggles the first matching slot (relay pin
driven before the EEPROM byte is written) and always refreshes
`lastReceivedCode` / `lastReceivedTime`. -/
def handleRFInput (s : SysState) (now value : Nat) : SysState × List Action :=
  if value = 0 then (s, [])
  else if value ≠ s.lastReceivedCode ∨ now - s.lastReceivedTime > debounceTime then
    match matchSlot s.buttonCodes value with
    | some i =>
        let b := !(s.relayStates i)
        ({ s with relayStates := Function.update s.relayStates i b,
                  lastReceivedCode := value, lastReceivedTime := now },
         [Action.digitalWrite i b, Action.storeWriteByte (16 + i) b])
    | none =>
        ({ s with lastReceivedCode := value, lastReceivedTime := now }, [])
  else (s, [])

/-- One iteration of the dispatch loop: feed the received event to
`handleRFInput` and append its side effects to the log. -/
def dispatchStep (p : SysState × List Action) (e : Nat × Nat) : SysState × List Action :=
  let r := handleRFInput p.1 e.1 e.2
  (r.1, p.2 ++ r.2)

/-- Iterate the dispatch loop over a list of `(now, value)` received events
(iterations where no RF signal is available change nothing and are elided),
accumulating the side effects. -/
def runDispatch (s : SysState) (events : List (Nat × Nat)) : SysState × List Action :=
  events.foldl dispatchStep (s, [])

/-- The side effects that touch the persistent store (the `digitalWrite` pin
actions filtered out). -/
def storeWrites (acts : List Action) : List Action :=
  acts.filter fun a =>
    match a with
    | .digitalWrite _ _ => false
    | _ => true

/-- Every store-touching action in the list is a byte write into the relay
region `[16, 20)`; in particular none touches the code-registry region
`[0, 16)`. -/
def relayRegionOnly (acts : List Action) : Prop :=
  ∀ a ∈ acts,
    (∀ addr v, a ≠ Action.storeWriteWord addr v) ∧
    (∀ addr v, a = Action.storeWriteByte addr v → 16 ≤ addr ∧ addr < 20)

/-- Number of relay toggles (pin writes) among the recorded side effects. -/
def toggleCount (acts : List Action) : Nat :=
  (acts.filter fun a =>
    match a with
    | .digitalWrite _ _ => true
    | _ => false).length

/-- Effect of one recorded action on the EEPROM contents (pin writes leave the
store alone); bus transactions assumed successful. -/
def applyAction (mem : Nat → Nat) : Action → (Nat → Nat)
  | .digitalWrite _ _ => mem
  | .storeWriteByte a v => Function.update mem a (if v then 1 else 0)
  | .storeWriteWord a v => storeBytes mem a (wordBytes v)

/-- Replay a list of recorded actions against the EEPROM contents. -/
def applyActions (mem : Nat → Nat) (acts : List Action) : Nat → Nat :=
  acts.foldl applyAction mem

/-! ### Learning-mode model -/

/-- The state carried through one `enterLearningMode()` session (lines
119–159): the `buttonCodes` array, `learnStep`, the *global*
`lastReceivedCode` (note: shared with `handleRFInput` and NOT reset at
session entry), the `learningMode` flag, whether exit was via the 300 s
timeout, and the EEPROM writes issued so far. -/
structure LearnSession where
  buttonCodes : Nat → Nat
  learnStep : Nat
  lastReceivedCode : Nat
  active : Bool
  timedOut : Bool
  writes : List Action

/-- Session entry (lines 120–122): `learningMode = true; learnStep = 0;
learningModeStartTime = millis();`.  The global `lastReceivedCode` keeps
whatever value it had before entry. -/
def enterLearningMode (codes : Nat → Nat) (lastCode : Nat) : LearnSession :=
  { buttonCodes := codes, learnStep := 0, lastReceivedCode := lastCode,
    active := true, timedOut := false, writes := [] }

/-- The timeout check at lines 154–157, performed on every iteration of the
blocking `while (learningMode)` loop at clock reading `now`. -/
def learnTick (start : Nat) (st : LearnSession) (now : Nat) : LearnSession :=
  if st.active ∧ now - start > learningModeTimeout then
    { st with active := false, timedOut := true }
  else st

/-- One received RF event `(time, value)` presented to the learning loop
(lines 126–151).  The loop spins between events, so the timeout check runs
first at the event's arrival time; a still-active session then captures the
value iff it is non-zero and differs from the global `lastReceivedCode`
(lines 129–149): the code is stored at index `learnStep`, persisted at offset
`learnStep * 4`, `learnStep` advances, and the session completes when it
reaches 4. -/
def learnEvent (start : Nat) (st : LearnSession) (e : Nat × Nat) : LearnSession :=
  let st1 := learnTick start st e.1
  if st1.active ∧ e.2 ≠ 0 ∧ e.2 ≠ st1.lastReceivedCode then
    { st1 with
      buttonCodes := Function.update st1.buttonCodes st1.learnStep e.2,
      writes := st1.writes ++ [Action.storeWriteWord (st1.learnStep * 4) e.2],
      learnStep := st1.learnStep + 1,
      lastReceivedCode := e.2,
      active := decide (st1.learnStep + 1 < 4) }
  else st1

/-- A whole session: fold the received events, in arrival order, through the
blocking loop. -/
def runSession (start : Nat) (st : LearnSession) (events : List (Nat × Nat)) :
    LearnSession :=
  events.foldl (learnEvent start) st

/-- The session reached `Serial.println("Learning mode complete!")`
(lines 139–141): all four slots captured. -/
def sessionComplete (st : LearnSession) : Prop :=
  st.active = false ∧ st.timedOut = false ∧ st.learnStep = 4

/-! ### Startup load model -/

/-- Lines 49–52 of `setup()`: `buttonCodes[i] = readEEPROM(i * 4);
relayStates[i] = readEEPROMByte(16 + i);` for each slot.  `wordOk`/`wordAvail`
(resp. `byteOk`/`byteAvail`) give the bus outcome of slot `i`'s word (resp.
byte) read; a byte is interpreted as `true` iff non-zero (C++ `bool`
conversion). -/
def setupLoad (wordOk : Nat → Bool) (wordAvail : Nat → Nat)
    (byteOk : Nat → Bool) (byteAvail : Nat → Nat) (mem : Nat → Nat) :
    (Nat → Nat) × (Nat → Bool) :=
  (fun i => readEEPROM (wordOk i) (wordAvail i) mem (i * 4),
   fun i => readEEPROMByte (byteOk i) (byteAvail i) mem (16 + i) != 0)

/-! ### Dispatch helper lemmas -/

/-- The acceptance condition of line 92:
`value != lastReceivedCode || millis() - lastReceivedTime > debounceTime`,
guarded by the non-zero check of line 90. -/
def rtAccepts (s : SysState) (now value : Nat) : Prop :=
  value ≠ 0 ∧ (value ≠ s.lastReceivedCode ∨ now - s.lastReceivedTime > debounceTime)

theorem handleRFInput_zero (s : SysState) (now : Nat) :
    handleRFInput s now 0 = (s, []) := rfl

theorem handleRFInput_reject (s : SysState) (now value : Nat) (hv : value ≠ 0)
    (hc : ¬(value ≠ s.lastReceivedCode ∨ now - s.lastReceivedTime > debounceTime)) :
    handleRFInput s now value = (s, []) := by
  unfold handleRFInput
  rw [if_neg hv, if_neg hc]

theorem handleRFInput_accept_match (s : SysState) (now value i : Nat)
    (hv : value ≠ 0)
    (hc : value ≠ s.lastReceivedCode ∨ now - s.lastReceivedTime > debounceTime)
    (hm : matchSlot s.buttonCodes value = some i) :
    handleRFInput s now value =
      ({ s with relayStates := Function.update s.relayStates i (!(s.relayStates i)),
                lastReceivedCode := value, lastReceivedTime := now },
       [Action.digitalWrite i (!(s.relayStates i)),
        Action.storeWriteByte (16 + i) (!(s.relayStates i))]) := by
  unfold handleRFInput
  rw [if_neg hv, if_pos hc, hm]

theorem handleRFInput_accept_nomatch (s : SysState) (now value : Nat)
    (hv : value ≠ 0)
    (hc : value ≠ s.lastReceivedCode ∨ now - s.lastReceivedTime > debounceTime)
    (hm : matchSlot s.buttonCodes value = none) :
    handleRFInput s now value =
      ({ s with lastReceivedCode := value, lastReceivedTime := now }, []) := by
  unfold handleRFInput
  rw [if_neg hv, if_pos hc, hm]

theorem matchSlot_first (codes : Nat → Nat) (value i : Nat) (hi : i < 4)
    (hm : codes i = value) (hfirst : ∀ j, j < i → codes j ≠ value) :
    matchSlot codes value = some i := by
  interval_cases i
  · unfold matchSlot
    rw [if_pos hm.symm]
  · have h0 := hfirst 0 (by norm_num)
    unfold matchSlot
    rw [if_neg (fun h => h0 h.symm), if_pos hm.symm]
  · have h0 := hfirst 0 (by norm_num)
    have h1 := hfirst 1 (by norm_num)
    unfold matchSlot
    rw [if_neg (fun h => h0 h.symm), if_neg (fun h => h1 h.symm), if_pos hm.symm]
  · have h0 := hfirst 0 (by norm_num)
    have h1 := hfirst 1 (by norm_num)
    have h2 := hfirst 2 (by norm_num)
    unfold matchSlot
    rw [if_neg (fun h => h0 h.symm), if_neg (fun h => h1 h.symm),
        if_neg (fun h => h2 h.symm), if_pos hm.symm]

theorem matchSlot_lt (codes : Nat → Nat) (value i : Nat)
    (h : matchSlot codes value = some i) : i < 4 := by
  unfold matchSlot at h
  split_ifs at h <;> simp_all <;> omega

/-! ### Learning-mode helper lemmas -/

theorem learnTick_eq_of_le (start : Nat) (st : LearnSession) (now : Nat)
    (h : now - start ≤ learningModeTimeout) : learnTick start st now = st := by
  unfold learnTick
  rw [if_neg (fun hc => absurd hc.2 (by omega))]

theorem learnTick_buttonCodes (start : Nat) (st : LearnSession) (now : Nat) :
    (learnTick start st now).buttonCodes = st.buttonCodes := by
  unfold learnTick
  split <;> rfl

theorem learnTick_learnStep (start : Nat) (st : LearnSession) (now : Nat) :
    (learnTick start st now).learnStep = st.learnStep := by
  unfold learnTick
  split <;> rfl

theorem learnTick_lastReceivedCode (start : Nat) (st : LearnSession) (now : Nat) :
    (learnTick start st now).lastReceivedCode = st.lastReceivedCode := by
  unfold learnTick
  split <;> rfl

theorem learnTick_writes (start : Nat) (st : LearnSession) (now : Nat) :
    (learnTick start st now).writes = st.writes := by
  unfold learnTick
  split <;> rfl

theorem learnEvent_zero (start : Nat) (st : LearnSession) (t : Nat) :
    learnEvent start st (t, 0) = learnTick start st t := by
  simp only [learnEvent]
  rw [if_neg (fun hc => hc.2.1 rfl)]

/-! ### Claim theorems: store adapter and dispatch -/

/-- **C7.** Store-failure degradation: a word or byte read whose bus
transaction fails, or whose response delivers fewer bytes than requested,
returns the default 0 instead of propagating an error; a word or byte write
whose bus transaction fails leaves the store contents unchanged and skips
the settle delay (the `false` component), and the caller's in-memory state
is untouched (the write operations never modify it). -/
theorem claim7_store_failure_degradation (mem : Nat → Nat) (address value : Nat)
    (b : Bool) (avail availB : Nat) (hav : avail < 4) (havB : availB < 1) :
    readEEPROM false avail mem address = 0 ∧
    readEEPROM true avail mem address = 0 ∧
    readEEPROMByte false availB mem address = 0 ∧
    readEEPROMByte true availB mem address = 0 ∧
    writeEEPROM false mem address value = (mem, false) ∧
    writeEEPROMByte false mem address b = (mem, false) := by
  refine ⟨rfl, ?_, rfl, ?_, rfl, rfl⟩
  · unfold readEEPROM
    rw [if_neg (by simp), if_neg (by omega)]
  · unfold readEEPROMByte
    rw [if_neg (by simp), if_neg (by omega)]

/-- Witness for `claim7_store_failure_degradation`: address 3, value 7,
a 3-byte short word read and a 0-byte short byte read. -/
theorem claim7_store_failure_degradation_witness :
    readEEPROM false 3 (fun _ => 9) 3 = 0 ∧
    readEEPROM true 3 (fun _ => 9) 3 = 0 ∧
    readEEPROMByte false 0 (fun _ => 9) 3 = 0 ∧
    readEEPROMByte true 0 (fun _ => 9) 3 = 0 ∧
    writeEEPROM false (fun _ => 9) 3 7 = ((fun _ => 9), false) ∧
    writeEEPROMByte false (fun _ => 9) 3 true = ((fun _ => 9), false) :=
  claim7_store_failure_degradation (fun _ => 9) 3 7 true 3 0 (by norm_num) (by norm_num)

/-- **C4.** Zero-rejection: a received code of 0 performs no lookup, no
toggle, no registry write and no store write, in run-time dispatch
(`handleRFInput` returns the state unchanged with no side effects) and in
learning mode (the capture loop leaves the session unchanged while the
timeout has not elapsed, and in any case never writes a slot, advances
`learnStep`, or issues a store write on a 0 input). -/
theorem claim4_zero_rejection (s : SysState) (now : Nat)
    (start : Nat) (st : LearnSession) (t : Nat) :
    handleRFInput s now 0 = (s, []) ∧
    (t - start ≤ learningModeTimeout → learnEvent start st (t, 0) = st) ∧
    (learnEvent start st (t, 0)).buttonCodes = st.buttonCodes ∧
    (learnEvent start st (t, 0)).learnStep = st.learnStep ∧
    (learnEvent start st (t, 0)).writes = st.writes := by
  refine ⟨rfl, ?_, ?_, ?_, ?_⟩
  · intro ht
    rw [learnEvent_zero, learnTick_eq_of_le start st t ht]
  · rw [learnEvent_zero, learnTick_buttonCodes]
  · rw [learnEvent_zero, learnTick_learnStep]
  · rw [learnEvent_zero, learnTick_writes]

/-- Witness for `claim4_zero_rejection` at a concrete state. -/
theorem claim4_zero_rejection_witness :
    handleRFInput ⟨fun _ => 5, fun _ => false, 9, 2⟩ 3 0 =
      (⟨fun _ => 5, fun _ => false, 9, 2⟩, []) ∧
    learnEvent 0 (enterLearningMode (fun _ => 5) 9) (3, 0) =
      enterLearningMode (fun _ => 5) 9 := by
  have h := claim4_zero_rejection ⟨fun _ => 5, fun _ => false, 9, 2⟩ 3 0
    (enterLearningMode (fun _ => 5) 9) 3
  exact ⟨h.1, h.2.1 (by norm_num [learningModeTimeout])⟩

/-- **C5.** Registry lookup is a first-match linear scan: when the accepted
code equals the stored code of slot `i` and of no earlier slot, exactly slot
`i` is toggled — its relay state flips, every other slot keeps its state, and
the side effects mention no slot other than `i`. -/
theorem claim5_lookup_first_match (s : SysState) (now value i : Nat)
    (hacc : rtAccepts s now value)
    (hi : i < 4) (hm : s.buttonCodes i = value)
    (hfirst : ∀ j, j < i → s.buttonCodes j ≠ value) :
    (handleRFInput s now value).1.relayStates i = !(s.relayStates i) ∧
    (∀ j, j ≠ i → (handleRFInput s now value).1.relayStates j = s.relayStates j) ∧
    (handleRFInput s now value).2 =
      [Action.digitalWrite i (!(s.relayStates i)),
       Action.storeWriteByte (16 + i) (!(s.relayStates i))] := by
  rw [handleRFInput_accept_match s now value i hacc.1 hacc.2
    (matchSlot_first s.buttonCodes value i hi hm hfirst)]
  refine ⟨by simp, fun j hj => ?_, rfl⟩
  simp [Function.update_apply, hj]

/-- Witness for `claim5_lookup_first_match`: code 7 stored in slots 1 and 3,
presented code 7 toggles slot 1 only. -/
theorem claim5_lookup_first_match_witness :
    (handleRFInput ⟨fun j => if j = 1 ∨ j = 3 then 7 else j, fun _ => false, 0, 0⟩ 5 7).1.relayStates 1 = true ∧
    (handleRFInput ⟨fun j => if j = 1 ∨ j = 3 then 7 else j, fun _ => false, 0, 0⟩ 5 7).1.relayStates 3 = false := by
  have h := claim5_lookup_first_match
    ⟨fun j => if j = 1 ∨ j = 3 then 7 else j, fun _ => false, 0, 0⟩ 5 7 1
    ⟨by norm_num, Or.inl (by norm_num)⟩ (by norm_num) (by norm_num)
    (by intro j hj; interval_cases j <;> norm_num)
  exact ⟨h.1, h.2.1 3 (by norm_num)⟩

/-- **C9.** Toggle ordering: on an accepted code matching slot `i`, the side
effects are exactly the relay-pin write followed by the store write of the
new boolean at offset `16 + i`, in that order — the store update never
precedes the hardware application. -/
theorem claim9_output_before_persist (s : SysState) (now value i : Nat)
    (hacc : rtAccepts s now value)
    (hm : matchSlot s.buttonCodes value = some i) :
    (handleRFInput s now value).2 =
      [Action.digitalWrite i (!(s.relayStates i)),
       Action.storeWriteByte (16 + i) (!(s.relayStates i))] ∧
    (handleRFInput s now value).1.relayStates i = !(s.relayStates i) := by
  rw [handleRFInput_accept_match s now value i hacc.1 hacc.2 hm]
  exact ⟨rfl, by simp⟩

/-- Witness for `claim9_output_before_persist`: slot 0 holding code 7. -/
theorem claim9_output_before_persist_witness :
    (handleRFInput ⟨fun _ => 7, fun _ => false, 0, 0⟩ 5 7).2 =
      [Action.digitalWrite 0 true, Action.storeWriteByte 16 true] := by
  have h := claim9_output_before_persist ⟨fun _ => 7, fun _ => false, 0, 0⟩ 5 7 0
    ⟨by norm_num, Or.inl (by norm_num)⟩ rfl
  simpa using h.1

/-- **C3.** Run-time dedup with cooldown: a non-zero code is accepted iff it
differs from the previously accepted code or more than `debounceTime` (1 s)
has elapsed since the previous acceptance; an accepted code refreshes
`lastReceivedCode`/`lastReceivedTime` whether or not a registry match was
found; the same matching code presented twice within the quiet interval
toggles exactly once (the second presentation is a complete no-op), and
presented again after the interval elapses it toggles a second time. -/
theorem claim3_runtime_dedup_cooldown (s : SysState) (now t0 t1 t2 value i : Nat)
    (hv : value ≠ 0) :
    (value = s.lastReceivedCode → now - s.lastReceivedTime ≤ debounceTime →
      handleRFInput s now value = (s, [])) ∧
    ((value ≠ s.lastReceivedCode ∨ now - s.lastReceivedTime > debounceTime) →
      (handleRFInput s now value).1.lastReceivedCode = value ∧
      (handleRFInput s now value).1.lastReceivedTime = now) ∧
    ((value ≠ s.lastReceivedCode ∨ t0 - s.lastReceivedTime > debounceTime) →
      matchSlot s.buttonCodes value = some i →
      toggleCount (handleRFInput s t0 value).2 = 1 ∧
      (t1 - t0 ≤ debounceTime →
        handleRFInput (handleRFInput s t0 value).1 t1 value =
          ((handleRFInput s t0 value).1, [])) ∧
      (t2 - t0 > debounceTime →
        toggleCount (handleRFInput (handleRFInput s t0 value).1 t2 value).2 = 1)) := by
  refine ⟨?_, ?_, ?_⟩
  · intro heq hle
    exact handleRFInput_reject s now value hv
      (fun h => h.elim (fun h1 => h1 heq) (fun h2 => absurd h2 (by omega)))
  · intro hc
    cases hm : matchSlot s.buttonCodes value with
    | some j => rw [handleRFInput_accept_match s now value j hv hc hm]; exact ⟨rfl, rfl⟩
    | none => rw [handleRFInput_accept_nomatch s now value hv hc hm]; exact ⟨rfl, rfl⟩
  · intro hc hm
    have e1 := handleRFInput_accept_match s t0 value i hv hc hm
    refine ⟨by rw [e1]; rfl, ?_, ?_⟩
    · intro hle
      apply handleRFInput_reject _ t1 value hv
      rw [e1]
      exact fun h => h.elim (fun h1 => h1 rfl)
        (fun h2 => absurd h2 (show ¬ debounceTime < t1 - t0 by omega))
    · intro hgt
      have hm2 : matchSlot (handleRFInput s t0 value).1.buttonCodes value = some i := by
        rw [e1]; exact hm
      have hc2 : value ≠ (handleRFInput s t0 value).1.lastReceivedCode ∨
          t2 - (handleRFInput s t0 value).1.lastReceivedTime > debounceTime := by
        rw [e1]; exact Or.inr hgt
      rw [handleRFInput_accept_match _ t2 value i hv hc2 hm2]
      rfl

/-- Witness for `claim3_runtime_dedup_cooldown`: code 7 in slot 0, presented
at t=5, again at t=800 (suppressed) and at t=1200 (second toggle). -/
theorem claim3_runtime_dedup_cooldown_witness :
    toggleCount (handleRFInput ⟨fun _ => 7, fun _ => false, 0, 0⟩ 5 7).2 = 1 ∧
    handleRFInput (handleRFInput ⟨fun _ => 7, fun _ => false, 0, 0⟩ 5 7).1 800 7 =
      ((handleRFInput ⟨fun _ => 7, fun _ => false, 0, 0⟩ 5 7).1, []) ∧
    toggleCount
      (handleRFInput (handleRFInput ⟨fun _ => 7, fun _ => false, 0, 0⟩ 5 7).1 1200 7).2 = 1 := by
  have h := (claim3_runtime_dedup_cooldown ⟨fun _ => 7, fun _ => false, 0, 0⟩ 5 5 800 1200 7 0
      (by norm_num)).2.2 (Or.inl (by norm_num)) rfl
  exact ⟨h.1, h.2.1 (by norm_num [debounceTime]), h.2.2 (by norm_num [debounceTime])⟩

theorem handleRFInput_relayRegionOnly (s : SysState) (now value : Nat) :
    relayRegionOnly (handleRFInput s now value).2 := by
  by_cases hv : value = 0
  · subst hv
    rw [handleRFInput_zero]
    intro a ha
    simp at ha
  by_cases hc : value ≠ s.lastReceivedCode ∨ now - s.lastReceivedTime > debounceTime
  · cases hm : matchSlot s.buttonCodes value with
    | none =>
        rw [handleRFInput_accept_nomatch s now value hv hc hm]
        intro a ha
        simp at ha
    | some i =>
        have hi := matchSlot_lt s.buttonCodes value i hm
        rw [handleRFInput_accept_match s now value i hv hc hm]
        intro a ha
        rcases List.mem_cons.mp ha with rfl | ha2
        · exact ⟨fun addr v h => by simp at h, fun addr v h => by simp at h⟩
        · rcases List.mem_cons.mp ha2 with rfl | ha3
          · refine ⟨fun addr v h => by simp at h, fun addr v h => ?_⟩
            have := (Action.storeWriteByte.inj h).1
            omega
          · simp at ha3
  · rw [handleRFInput_reject s now value hv hc]
    intro a ha
    simp at ha

theorem runDispatch_relayRegionOnly (s : SysState) (events : List (Nat × Nat)) :
    relayRegionOnly (runDispatch s events).2 := by
  have main : ∀ (l : List (Nat × Nat)) (p : SysState × List Action),
      relayRegionOnly p.2 → relayRegionOnly (l.foldl dispatchStep p).2 := by
    intro l
    induction l with
    | nil => exact fun p hp => hp
    | cons e es ih =>
        intro p hp
        apply ih
        intro a ha
        rcases List.mem_append.mp ha with h | h
        · exact hp a h
        · exact handleRFInput_relayRegionOnly p.1 e.1 e.2 a h
  exact main events (s, []) (fun a ha => by simp at ha)

theorem applyActions_frame_low (acts : List Action) :
    ∀ mem : Nat → Nat, relayRegionOnly acts → ∀ x, x < 16 →
      applyActions mem acts x = mem x := by
  induction acts with
  | nil => intro mem _ x _; rfl
  | cons a as ih =>
      intro mem h x hx
      have ha := h a (List.mem_cons_self a as)
      have h' : relayRegionOnly as := fun b hb => h b (List.mem_cons_of_mem a hb)
      have step : applyActions mem (a :: as) x = applyActions (applyAction mem a) as x := rfl
      rw [step, ih (applyAction mem a) h' x hx]
      cases a with
      | digitalWrite j b => rfl
      | storeWriteByte addr v =>
          have hlo := (ha.2 addr v rfl).1
          show Function.update mem addr _ x = mem x
          rw [Function.update_apply, if_neg (by omega)]
      | storeWriteWord addr v => exact absurd rfl (ha.1 addr v)

/-- **C10.** Frame property of run-time dispatch: a toggle of slot `i` issues
exactly one store write, a byte at address `16 + i`; that iteration leaves
the code-registry region `[0, 16)` and the relay byte of every other slot
untouched, and any number of dispatch iterations leaves the registry region
`[0, 16)` of the store unchanged (word writes are issued only by learning
mode). -/
theorem claim10_dispatch_frame (s : SysState) (now value i : Nat) (mem : Nat → Nat)
    (events : List (Nat × Nat))
    (hacc : rtAccepts s now value) (hm : matchSlot s.buttonCodes value = some i) :
    storeWrites (handleRFInput s now value).2 =
      [Action.storeWriteByte (16 + i) (!(s.relayStates i))] ∧
    (∀ x, x < 16 → applyActions mem (handleRFInput s now value).2 x = mem x) ∧
    (∀ j, j ≠ i → applyActions mem (handleRFInput s now value).2 (16 + j) = mem (16 + j)) ∧
    (∀ x, x < 16 → applyActions mem (runDispatch s events).2 x = mem x) := by
  refine ⟨?_, ?_, ?_, ?_⟩
  · rw [handleRFInput_accept_match s now value i hacc.1 hacc.2 hm]
    rfl
  · intro x hx
    exact applyActions_frame_low _ mem (handleRFInput_relayRegionOnly s now value) x hx
  · intro j hj
    rw [handleRFInput_accept_match s now value i hacc.1 hacc.2 hm]
    show Function.update mem (16 + i) _ (16 + j) = mem (16 + j)
    rw [Function.update_apply, if_neg (by omega)]
  · intro x hx
    exact applyActions_frame_low _ mem (runDispatch_relayRegionOnly s events) x hx

/-- Witness for `claim10_dispatch_frame`: slot 0 holding code 7, checking
store address 5 (registry region) and 17 (slot 1's relay byte). -/
theorem claim10_dispatch_frame_witness :
    storeWrites (handleRFInput ⟨fun _ => 7, fun _ => false, 0, 0⟩ 5 7).2 =
      [Action.storeWriteByte 16 true] ∧
    applyActions (fun _ => 9) (handleRFInput ⟨fun _ => 7, fun _ => false, 0, 0⟩ 5 7).2 5 = 9 ∧
    applyActions (fun _ => 9) (handleRFInput ⟨fun _ => 7, fun _ => false, 0, 0⟩ 5 7).2 17 = 9 := by
  have h := claim10_dispatch_frame ⟨fun _ => 7, fun _ => false, 0, 0⟩ 5 7 0 (fun _ => 9) []
    ⟨by norm_num, Or.inl (by norm_num)⟩ rfl
  exact ⟨by simpa using h.1, h.2.1 5 (by norm_num), h.2.2.1 1 (by norm_num)⟩

/-! ### Learning-mode capture lemmas and session invariants -/

theorem learnEvent_capture (start : Nat) (st : LearnSession) (t v : Nat)
    (hact : st.active = true) (ht : t - start ≤ learningModeTimeout)
    (hv : v ≠ 0) (hne : v ≠ st.lastReceivedCode) :
    learnEvent start st (t, v) =
      { buttonCodes := Function.update st.buttonCodes st.learnStep v,
        learnStep := st.learnStep + 1,
        lastReceivedCode := v,
        active := decide (st.learnStep + 1 < 4),
        timedOut := st.timedOut,
        writes := st.writes ++ [Action.storeWriteWord (st.learnStep * 4) v] } := by
  simp only [learnEvent]
  rw [learnTick_eq_of_le start st t ht, if_pos ⟨hact, hv, hne⟩]

theorem learnEvent_reject (start : Nat) (st : LearnSession) (t v : Nat)
    (ht : t - start ≤ learningModeTimeout)
    (h : v = 0 ∨ v = st.lastReceivedCode) :
    learnEvent start st (t, v) = st := by
  simp only [learnEvent]
  rw [learnTick_eq_of_le start st t ht,
    if_neg (fun hc => h.elim (fun h0 => hc.2.1 h0) (fun he => hc.2.2 he))]

/-- The part of a session's history that the claims need: `learnStep` only
grows; slots at or above the final `learnStep` keep their initial value;
slots below the initial `learnStep` are stable; the write log only grows; and
every slot captured during the interval holds exactly the code that was
persisted for it at offset `slot * 4`. -/
def SessionEvolves (a b : LearnSession) : Prop :=
  a.learnStep ≤ b.learnStep ∧
  (∀ i, b.learnStep ≤ i → b.buttonCodes i = a.buttonCodes i) ∧
  (∀ i, i < a.learnStep → b.buttonCodes i = a.buttonCodes i) ∧
  (∀ x ∈ a.writes, x ∈ b.writes) ∧
  (∀ i, a.learnStep ≤ i → i < b.learnStep →
    Action.storeWriteWord (i * 4) (b.buttonCodes i) ∈ b.writes)

theorem sessionEvolves_refl (a : LearnSession) : SessionEvolves a a :=
  ⟨le_refl _, fun _ _ => rfl, fun _ _ => rfl, fun _ hx => hx, fun _ h1 h2 => absurd h2 (by omega)⟩

theorem sessionEvolves_trans {a b c : LearnSession}
    (h1 : SessionEvolves a b) (h2 : SessionEvolves b c) : SessionEvolves a c := by
  obtain ⟨l1, up1, lo1, w1, cap1⟩ := h1
  obtain ⟨l2, up2, lo2, w2, cap2⟩ := h2
  refine ⟨le_trans l1 l2, ?_, ?_, fun x hx => w2 x (w1 x hx), ?_⟩
  · intro i hi
    rw [up2 i hi, up1 i (by omega)]
  · intro i hi
    rw [lo2 i (by omega), lo1 i hi]
  · intro i hia hic
    by_cases hib : i < b.learnStep
    · have hm := cap1 i hia hib
      have he := lo2 i hib
      rw [he]
      exact w2 _ hm
    · exact cap2 i (by omega) hic

theorem learnTick_evolves (start : Nat) (st : LearnSession) (now : Nat) :
    SessionEvolves st (learnTick start st now) := by
  refine ⟨?_, ?_, ?_, ?_, ?_⟩
  · rw [learnTick_learnStep]
  · intro i _
    rw [learnTick_buttonCodes]
  · intro i _
    rw [learnTick_buttonCodes]
  · intro x hx
    rw [learnTick_writes]
    exact hx
  · intro i h1 h2
    rw [learnTick_learnStep] at h2
    exact absurd h2 (by omega)

theorem capture_evolves (st1 : LearnSession) (v : Nat) :
    SessionEvolves st1
      { buttonCodes := Function.update st1.buttonCodes st1.learnStep v,
        learnStep := st1.learnStep + 1,
        lastReceivedCode := v,
        active := decide (st1.learnStep + 1 < 4),
        timedOut := st1.timedOut,
        writes := st1.writes ++ [Action.storeWriteWord (st1.learnStep * 4) v] } := by
  refine ⟨?_, ?_, ?_, ?_, ?_⟩
  · show st1.learnStep ≤ st1.learnStep + 1
    omega
  · intro i hi
    have hi' : st1.learnStep + 1 ≤ i := hi
    show Function.update st1.buttonCodes st1.learnStep v i = st1.buttonCodes i
    rw [Function.update_apply, if_neg (by omega)]
  · intro i hi
    show Function.update st1.buttonCodes st1.learnStep v i = st1.buttonCodes i
    rw [Function.update_apply, if_neg (by omega)]
  · intro x hx
    exact List.mem_append_left _ hx
  · intro i hi1 hi2
    have hi2' : i < st1.learnStep + 1 := hi2
    have hieq : i = st1.learnStep := by omega
    subst hieq
    show Action.storeWriteWord (st1.learnStep * 4)
        (Function.update st1.buttonCodes st1.learnStep v st1.learnStep) ∈
      st1.writes ++ [Action.storeWriteWord (st1.learnStep * 4) v]
    rw [Function.update_same]
    exact List.mem_append_right _ (List.mem_singleton.mpr rfl)

theorem learnEvent_evolves (start : Nat) (st : LearnSession) (e : Nat × Nat) :
    SessionEvolves st (learnEvent start st e) := by
  have h1 := learnTick_evolves start st e.1
  simp only [learnEvent]
  by_cases hc : (learnTick start st e.1).active = true ∧ e.2 ≠ 0 ∧
      e.2 ≠ (learnTick start st e.1).lastReceivedCode
  · rw [if_pos hc]
    exact sessionEvolves_trans h1 (capture_evolves (learnTick start st e.1) e.2)
  · rw [if_neg hc]
    exact h1

theorem runSession_evolves (start : Nat) (events : List (Nat × Nat)) :
    ∀ st : LearnSession, SessionEvolves st (runSession start st events) := by
  induction events with
  | nil => exact fun st => sessionEvolves_refl st
  | cons e es ih =>
      intro st
      exact sessionEvolves_trans (learnEvent_evolves start st e) (ih (learnEvent start st e))

/-- While every processed event arrives inside the inactivity window, a
session that has not timed out keeps `learningMode` equal to
`learnStep < 4`. -/
theorem runSession_active_inv (start : Nat) :
    ∀ (events : List (Nat × Nat)) (st : LearnSession),
      (∀ e ∈ events, e.1 - start ≤ learningModeTimeout) →
      st.timedOut = false → st.active = decide (st.learnStep < 4) →
      (runSession start st events).timedOut = false ∧
      (runSession start st events).active =
        decide ((runSession start st events).learnStep < 4) := by
  intro events
  induction events with
  | nil => exact fun st _ h1 h2 => ⟨h1, h2⟩
  | cons e es ih =>
      intro st hw h1 h2
      have he := hw e (List.mem_cons_self e es)
      have hstep : (learnEvent start st e).timedOut = false ∧
          (learnEvent start st e).active =
            decide ((learnEvent start st e).learnStep < 4) := by
        simp only [learnEvent]
        simp only [learnTick_eq_of_le start st e.1 he]
        by_cases hc : st.active = true ∧ e.2 ≠ 0 ∧ e.2 ≠ st.lastReceivedCode
        · rw [if_pos hc]
          exact ⟨h1, rfl⟩
        · rw [if_neg hc]
          exact ⟨h1, h2⟩
      exact ih (learnEvent start st e) (fun e' he' => hw e' (List.mem_cons_of_mem e he'))
        hstep.1 hstep.2

/-! ### Claim theorems: learning mode -/

/-- **C1, counterexample.** The claim says the first non-zero code of a fresh
session is never rejected by comparison against codes received before the
session started.  In the source, `lastReceivedCode` is a global shared with
`handleRFInput` and is not reset by `enterLearningMode`, so a fresh session
entered while `lastReceivedCode = 42` rejects a first presented code 42:
the slot index stays 0 and the whole session state is unchanged. -/
theorem claim1_counterexample :
    (42 : Nat) ≠ 0 ∧
    learnEvent 0 (enterLearningMode (fun _ => 5) 42) (1, 42) =
      enterLearningMode (fun _ => 5) 42 ∧
    (learnEvent 0 (enterLearningMode (fun _ => 5) 42) (1, 42)).learnStep = 0 := by
  refine ⟨by norm_num, ?_, rfl⟩
  exact learnEvent_reject 0 (enterLearningMode (fun _ => 5) 42) 1 42
    (by norm_num [learningModeTimeout]) (Or.inr rfl)

/-- **C1, amended.** During a learning session (active, inside the inactivity
window) a presented code is accepted iff it is non-zero and differs from the
current value of the *global* `lastReceivedCode` — which is the previously
accepted code of the session once one exists, but at session entry still
holds the last code accepted before the session started.  An accepted code is
written at the current slot and advances it; a zero or repeated code leaves
the session unchanged; in particular the second of two consecutive identical
codes is discarded and does not advance the slot index. -/
theorem claim1_learning_dedup (start : Nat) (st : LearnSession) (t u v : Nat)
    (hact : st.active = true) (ht : t - start ≤ learningModeTimeout)
    (hu : u - start ≤ learningModeTimeout) :
    (v ≠ 0 → v ≠ st.lastReceivedCode →
      (learnEvent start st (t, v)).learnStep = st.learnStep + 1 ∧
      (learnEvent start st (t, v)).buttonCodes st.learnStep = v ∧
      (learnEvent start st (t, v)).lastReceivedCode = v) ∧
    (v = 0 ∨ v = st.lastReceivedCode → learnEvent start st (t, v) = st) ∧
    (v ≠ 0 → v ≠ st.lastReceivedCode →
      learnEvent start (learnEvent start st (t, v)) (u, v) =
        learnEvent start st (t, v)) := by
  refine ⟨?_, ?_, ?_⟩
  · intro hv hne
    rw [learnEvent_capture start st t v hact ht hv hne]
    refine ⟨rfl, ?_, rfl⟩
    show Function.update st.buttonCodes st.learnStep v st.learnStep = v
    rw [Function.update_same]
  · exact learnEvent_reject start st t v ht
  · intro hv hne
    rw [learnEvent_capture start st t v hact ht hv hne]
    exact learnEvent_reject start _ u v hu (Or.inr rfl)

/-- Witness for `claim1_learning_dedup`: a fresh session with pre-session
code 42; code 7 is accepted at t=1 and its immediate repetition at t=2 is
discarded. -/
theorem claim1_learning_dedup_witness :
    (learnEvent 0 (enterLearningMode (fun _ => 5) 42) (1, 7)).learnStep = 1 ∧
    learnEvent 0 (learnEvent 0 (enterLearningMode (fun _ => 5) 42) (1, 7)) (2, 7) =
      learnEvent 0 (enterLearningMode (fun _ => 5) 42) (1, 7) := by
  have h := claim1_learning_dedup 0 (enterLearningMode (fun _ => 5) 42) 1 2 7 rfl
    (by norm_num [learningModeTimeout]) (by norm_num [learningModeTimeout])
  exact ⟨(h.1 (by norm_num) (by decide)).1, h.2.2 (by norm_num) (by decide)⟩

/-- **C2, counterexample.** The claim says presenting 4 distinct non-zero
codes always fills slots 0–3 and completes the session.  But when the first
of the 4 codes equals the pre-session global `lastReceivedCode` (42 here), it
is rejected, only 3 slots are captured, and the session is not complete. -/
theorem claim2_counterexample :
    ¬ sessionComplete (runSession 0 (enterLearningMode (fun _ => 5) 42)
        [(1, 42), (2, 7), (3, 8), (4, 9)]) := by
  intro h
  have h3 : (runSession 0 (enterLearningMode (fun _ => 5) 42)
      [(1, 42), (2, 7), (3, 8), (4, 9)]).learnStep = 3 := rfl
  have h4 := h.2.2
  rw [h3] at h4
  exact absurd h4 (by norm_num)

/-- **C2, amended.** Session determinism, with the amendment forced by the
counterexample: (a) if additionally the *first* presented code differs from
the pre-session global `lastReceivedCode`, presenting 4 pairwise-distinct
non-zero codes inside the inactivity window fills slots 0–3 in order and the
session completes; (b) if, with every presented event inside the window, the
session has accepted fewer than 4 codes, then once the clock passes the
window (measured from session entry only — captures never reset it) the
session transitions to TimedOut, every slot at or above the reached step
still holds its pre-session code, and every captured slot holds exactly the
code that was persisted for it at offset `slot * 4` during the session. -/
theorem claim2_session_determinism (start pre : Nat) (codes : Nat → Nat) :
    (∀ t0 t1 t2 t3 c0 c1 c2 c3 : Nat,
      c0 ≠ 0 → c1 ≠ 0 → c2 ≠ 0 → c3 ≠ 0 →
      c0 ≠ c1 → c0 ≠ c2 → c0 ≠ c3 → c1 ≠ c2 → c1 ≠ c3 → c2 ≠ c3 →
      c0 ≠ pre →
      t0 - start ≤ learningModeTimeout → t1 - start ≤ learningModeTimeout →
      t2 - start ≤ learningModeTimeout → t3 - start ≤ learningModeTimeout →
      sessionComplete (runSession start (enterLearningMode codes pre)
        [(t0, c0), (t1, c1), (t2, c2), (t3, c3)]) ∧
      (runSession start (enterLearningMode codes pre)
        [(t0, c0), (t1, c1), (t2, c2), (t3, c3)]).buttonCodes 0 = c0 ∧
      (runSession start (enterLearningMode codes pre)
        [(t0, c0), (t1, c1), (t2, c2), (t3, c3)]).buttonCodes 1 = c1 ∧
      (runSession start (enterLearningMode codes pre)
        [(t0, c0), (t1, c1), (t2, c2), (t3, c3)]).buttonCodes 2 = c2 ∧
      (runSession start (enterLearningMode codes pre)
        [(t0, c0), (t1, c1), (t2, c2), (t3, c3)]).buttonCodes 3 = c3) ∧
    (∀ (events : List (Nat × Nat)) (T : Nat),
      (∀ e ∈ events, e.1 - start ≤ learningModeTimeout) →
      (runSession start (enterLearningMode codes pre) events).learnStep < 4 →
      T - start > learningModeTimeout →
      (learnTick start (runSession start (enterLearningMode codes pre) events) T).timedOut
          = true ∧
      (learnTick start (runSession start (enterLearningMode codes pre) events) T).active
          = false ∧
      (∀ i, (runSession start (enterLearningMode codes pre) events).learnStep ≤ i →
        (learnTick start (runSession start (enterLearningMode codes pre) events)
          T).buttonCodes i = codes i) ∧
      (∀ i, i < (runSession start (enterLearningMode codes pre) events).learnStep →
        Action.storeWriteWord (i * 4)
            ((learnTick start (runSession start (enterLearningMode codes pre) events)
              T).buttonCodes i) ∈
          (learnTick start (runSession start (enterLearningMode codes pre) events)
            T).writes)) := by
  constructor
  · intro t0 t1 t2 t3 c0 c1 c2 c3 h0 h1 h2 h3 d01 d02 d03 d12 d13 d23 hpre w0 w1 w2 w3
    have e0 : learnEvent start (enterLearningMode codes pre) (t0, c0) =
        ⟨Function.update codes 0 c0, 1, c0, true, false,
          [Action.storeWriteWord 0 c0]⟩ :=
      learnEvent_capture start (enterLearningMode codes pre) t0 c0 rfl w0 h0 hpre
    have e1 : learnEvent start (⟨Function.update codes 0 c0, 1, c0, true, false,
        [Action.storeWriteWord 0 c0]⟩ : LearnSession) (t1, c1) =
        ⟨Function.update (Function.update codes 0 c0) 1 c1, 2, c1, true, false,
          [Action.storeWriteWord 0 c0, Action.storeWriteWord 4 c1]⟩ :=
      learnEvent_capture start _ t1 c1 rfl w1 h1 (Ne.symm d01)
    have e2 : learnEvent start (⟨Function.update (Function.update codes 0 c0) 1 c1,
        2, c1, true, false,
        [Action.storeWriteWord 0 c0, Action.storeWriteWord 4 c1]⟩ : LearnSession)
        (t2, c2) =
        ⟨Function.update (Function.update (Function.update codes 0 c0) 1 c1) 2 c2,
          3, c2, true, false,
          [Action.storeWriteWord 0 c0, Action.storeWriteWord 4 c1,
            Action.storeWriteWord 8 c2]⟩ :=
      learnEvent_capture start _ t2 c2 rfl w2 h2 (Ne.symm d12)
    have e3 : learnEvent start (⟨Function.update (Function.update
        (Function.update codes 0 c0) 1 c1) 2 c2, 3, c2, true, false,
        [Action.storeWriteWord 0 c0, Action.storeWriteWord 4 c1,
          Action.storeWriteWord 8 c2]⟩ : LearnSession) (t3, c3) =
        ⟨Function.update (Function.update (Function.update
            (Function.update codes 0 c0) 1 c1) 2 c2) 3 c3,
          4, c3, false, false,
          [Action.storeWriteWord 0 c0, Action.storeWriteWord 4 c1,
            Action.storeWriteWord 8 c2, Action.storeWriteWord 12 c3]⟩ :=
      learnEvent_capture start _ t3 c3 rfl w3 h3 (Ne.symm d23)
    have efin : runSession start (enterLearningMode codes pre)
        [(t0, c0), (t1, c1), (t2, c2), (t3, c3)] =
        ⟨Function.update (Function.update (Function.update
            (Function.update codes 0 c0) 1 c1) 2 c2) 3 c3,
          4, c3, false, false,
          [Action.storeWriteWord 0 c0, Action.storeWriteWord 4 c1,
            Action.storeWriteWord 8 c2, Action.storeWriteWord 12 c3]⟩ := by
      show learnEvent start (learnEvent start (learnEvent start
        (learnEvent start (enterLearningMode codes pre) (t0, c0)) (t1, c1))
          (t2, c2)) (t3, c3) = _
      rw [e0, e1, e2, e3]
    rw [efin]
    refine ⟨⟨rfl, rfl, rfl⟩, ?_, ?_, ?_, ?_⟩ <;>
      simp [Function.update_apply]
  · intro events T hwin h4 hT
    have hev := runSession_evolves start events (enterLearningMode codes pre)
    have hai := runSession_active_inv start events (enterLearningMode codes pre)
      hwin rfl rfl
    have hactive : (runSession start (enterLearningMode codes pre) events).active
        = true := by
      rw [hai.2]
      exact decide_eq_true h4
    have etick : learnTick start (runSession start (enterLearningMode codes pre)
        events) T =
        { runSession start (enterLearningMode codes pre) events with
          active := false, timedOut := true } := by
      unfold learnTick
      rw [if_pos ⟨hactive, hT⟩]
    rw [etick]
    refine ⟨rfl, rfl, ?_, ?_⟩
    · intro i hi
      exact hev.2.1 i hi
    · intro i hi
      exact hev.2.2.2.2 i (Nat.zero_le i) hi

/-- Witness for `claim2_session_determinism`: codes 7,8,9,10 presented at
t=1..4 complete a session entered with pre-session code 42; and a session
that accepted only code 7 times out at t=300001 with slot 0 = 7 persisted
and slot 3 untouched. -/
theorem claim2_session_determinism_witness :
    sessionComplete (runSession 0 (enterLearningMode (fun _ => 5) 42)
      [(1, 7), (2, 8), (3, 9), (4, 10)]) ∧
    (runSession 0 (enterLearningMode (fun _ => 5) 42)
      [(1, 7), (2, 8), (3, 9), (4, 10)]).buttonCodes 0 = 7 ∧
    (learnTick 0 (runSession 0 (enterLearningMode (fun _ => 5) 42) [(1, 7)])
      300001).timedOut = true ∧
    (learnTick 0 (runSession 0 (enterLearningMode (fun _ => 5) 42) [(1, 7)])
      300001).buttonCodes 3 = 5 := by
  have hA := (claim2_session_determinism 0 42 (fun _ => 5)).1 1 2 3 4 7 8 9 10
    (by norm_num) (by norm_num) (by norm_num) (by norm_num)
    (by norm_num) (by norm_num) (by norm_num) (by norm_num) (by norm_num)
    (by norm_num) (by norm_num)
    (by norm_num [learningModeTimeout]) (by norm_num [learningModeTimeout])
    (by norm_num [learningModeTimeout]) (by norm_num [learningModeTimeout])
  have hB := (claim2_session_determinism 0 42 (fun _ => 5)).2 [(1, 7)] 300001
    (by intro e he; simp at he; rw [he]; norm_num [learningModeTimeout])
    (by decide) (by norm_num [learningModeTimeout])
  refine ⟨hA.1, hA.2.1, hB.1, ?_⟩
  have h3 := hB.2.2.1 3 (by decide)
  exact h3

/-- **C8, counterexample.** The claim says a slot can never hold 0, including
after the startup load.  But `setup()` stores whatever `readEEPROM` returns,
and a failed bus read returns the default 0 (lines 196–199), so after a
startup whose word reads fail every slot — slot 0 shown here — holds 0. -/
theorem claim8_counterexample :
    (setupLoad (fun _ => false) (fun _ => 4) (fun _ => true) (fun _ => 1)
      (fun _ => 0xFF)).1 0 = 0 := rfl

/-- **C8, amended.** The learning state machine never stores 0: a capture
step either leaves a slot unchanged or writes a non-zero code into it, and
any store write it appends carries a non-zero code; run-time dispatch never
modifies the registry at all.  (The startup load, by contrast, copies the
store read result verbatim, so a slot can hold 0 after startup when the read
fails or the stored word is 0.) -/
theorem claim8_learning_never_stores_zero (start : Nat) (st : LearnSession)
    (e : Nat × Nat) (i : Nat) (s : SysState) (now value : Nat) :
    ((learnEvent start st e).buttonCodes i = st.buttonCodes i ∨
      (learnEvent start st e).buttonCodes i ≠ 0) ∧
    ((learnEvent start st e).writes = st.writes ∨
      ∃ v, v ≠ 0 ∧ (learnEvent start st e).writes =
        st.writes ++ [Action.storeWriteWord (st.learnStep * 4) v]) ∧
    (handleRFInput s now value).1.buttonCodes = s.buttonCodes := by
  refine ⟨?_, ?_, ?_⟩
  · simp only [learnEvent]
    by_cases hc : (learnTick start st e.1).active = true ∧ e.2 ≠ 0 ∧
        e.2 ≠ (learnTick start st e.1).lastReceivedCode
    · rw [if_pos hc]
      show Function.update (learnTick start st e.1).buttonCodes
          (learnTick start st e.1).learnStep e.2 i = st.buttonCodes i ∨
        Function.update (learnTick start st e.1).buttonCodes
          (learnTick start st e.1).learnStep e.2 i ≠ 0
      rw [learnTick_buttonCodes, learnTick_learnStep, Function.update_apply]
      by_cases hi : i = st.learnStep
      · right
        rw [if_pos hi]
        exact hc.2.1
      · left
        rw [if_neg hi]
    · rw [if_neg hc, learnTick_buttonCodes]
      exact Or.inl rfl
  · simp only [learnEvent]
    by_cases hc : (learnTick start st e.1).active = true ∧ e.2 ≠ 0 ∧
        e.2 ≠ (learnTick start st e.1).lastReceivedCode
    · rw [if_pos hc]
      right
      refine ⟨e.2, hc.2.1, ?_⟩
      show (learnTick start st e.1).writes ++
          [Action.storeWriteWord ((learnTick start st e.1).learnStep * 4) e.2] = _
      rw [learnTick_writes, learnTick_learnStep]
    · rw [if_neg hc, learnTick_writes]
      exact Or.inl rfl
  · by_cases hv : value = 0
    · subst hv
      rw [handleRFInput_zero]
    by_cases hcond : value ≠ s.lastReceivedCode ∨
        now - s.lastReceivedTime > debounceTime
    · cases hm : matchSlot s.buttonCodes value with
      | some j => rw [handleRFInput_accept_match s now value j hv hcond hm]
      | none => rw [handleRFInput_accept_nomatch s now value hv hcond hm]
    · rw [handleRFInput_reject s now value hv hcond]
